import Mathlib

/-!
Verification of the gwf git-workflow tool (Rust), against the branch-naming
codec, side-message store, branch creator and finisher of
`src/commands/nfb.rs` and `src/commands/finish.rs` (the current versions of
the two operations; `src/main.rs` additionally holds an earlier inline draft
of both which accepts only 3-segment branch names and runs the post-commit
command without a shell).

Strings are modelled as lists of unicode scalar values (`List Nat`), so the
byte arithmetic of the `slug` crate (lowercasing by adding 32, the separator
`/` = 47, `-` = 45, newline = 10) is directly visible.  The `deunicode_char`
table used by `slugify` for non-ASCII characters is an abstract parameter
`deu`: every fact proved here holds for an arbitrary table.  Calls into
libgit2 that no claim is about (opening the repository, writing the index
tree, creating refs, checkout, creating the commit object) are modelled as
succeeding; the fallible steps the program itself branches on (resolving the
branch shorthand, reading the side-message file, the segment-count check,
resolving the workdir, reading/parsing `gwf.toml`, spawning `sh`) are
explicit.
-/

/-- A Lean string literal as a list of unicode scalar values. -/
def chars (s : String) : List Nat := s.data.map Char.toNat

/-- A concrete stand-in for the `deunicode_char` table (never consulted on
ASCII input, which is all the concrete inputs below use). -/
def deu0 : Nat → Option (List Nat) := fun _ => none

/-- One step of the `slug` crate's `push_char` closure (`src` of crate `slug`,
used by both `nfb.rs` and `finish.rs` via `slugify`): ASCII lowercase letters
and digits are kept, uppercase letters are lowercased by `+ 32`
(`x - b'A' + b'a'`), anything else becomes a single `-` (45) unless the
previous pushed character already was one.  The accumulator is
(slug so far, prev_is_dash). -/
def push_char (acc : List Nat × Bool) (x : Nat) : List Nat × Bool :=
  if (97 ≤ x ∧ x ≤ 122) ∨ (48 ≤ x ∧ x ≤ 57) then
    (acc.1 ++ [x], false)
  else if 65 ≤ x ∧ x ≤ 90 then
    (acc.1 ++ [x + 32], false)
  else if acc.2 = false then
    (acc.1 ++ [45], true)
  else
    acc

/-- Processing of one input character by `slugify`: ASCII characters go
through `push_char` directly; a non-ASCII character is transliterated by the
`deunicode_char` table (default `"-"` when the table has no entry) and each
resulting byte goes through `push_char`. -/
def slug_step (deu : Nat → Option (List Nat)) (acc : List Nat × Bool) (c : Nat) :
    List Nat × Bool :=
  if c ≤ 127 then push_char acc c
  else ((deu c).getD [45]).foldl push_char acc

/-- The `slug` crate's `slugify`: fold `slug_step` over the input starting
with `prev_is_dash = true` (so no leading dash is ever emitted), then pop the
single possible trailing dash. -/
def slugify (deu : Nat → Option (List Nat)) (s : List Nat) : List Nat :=
  let r := s.foldl (slug_step deu) ([], true)
  if r.1.getLast? = some 45 then r.1.dropLast else r.1

/-- Rust's `str::split('/')` (accumulator = current segment, reversed). -/
def split_slash_aux : List Nat → List Nat → List (List Nat)
  | [], acc => [acc.reverse]
  | c :: cs, acc =>
    if c = 47 then acc.reverse :: split_slash_aux cs []
    else split_slash_aux cs (c :: acc)

/-- Rust's `current_branch.split('/').collect::<Vec<_>>()`:
`split_slash [] = [[]]`, and separators at the ends or adjacent separators
yield empty segments, exactly as in Rust. -/
def split_slash (l : List Nat) : List (List Nat) := split_slash_aux l []

/-- The branch-name computation of `new_branch` (`src/commands/nfb.rs`
lines 28-34): `slug(type)/slug(message)` when `scope` is the empty string,
else `slug(type)/slug(scope)/slug(message)` (47 is `/`). -/
def encode (deu : Nat → Option (List Nat)) (type_ scope message : List Nat) :
    List Nat :=
  if scope = [] then slugify deu type_ ++ 47 :: slugify deu message
  else slugify deu type_ ++ 47 :: (slugify deu scope ++ 47 :: slugify deu message)

/-- The side-message store's key for branch `b`:
`get_gwf_dir().join(slugify(b))`, i.e. `<gwfDir>/<slug(b)>`.  Both
`nfb.rs` (line 55) and `finish.rs` (line 33) compute exactly this. -/
def store_key (deu : Nat → Option (List Nat)) (gwfDir b : List Nat) : List Nat :=
  gwfDir ++ 47 :: slugify deu b

/-- Store put: `File::create` + `writeln!(file, "{}", message)`
(`src/commands/nfb.rs` lines 57-59): the file at `store_key` now holds
`text` followed by a newline (10), any prior content overwritten.  The
filesystem is modelled as a map from paths to readable contents. -/
def store_put (deu : Nat → Option (List Nat))
    (files : List Nat → Option (List Nat)) (gwfDir b text : List Nat) :
    List Nat → Option (List Nat) :=
  fun p => if p = store_key deu gwfDir b then some (text ++ [10]) else files p

/-- Store get: `fs::read_to_string(message_file)` (`src/commands/finish.rs`
lines 33-34); `none` is a failing read (file absent). -/
def store_get (deu : Nat → Option (List Nat))
    (files : List Nat → Option (List Nat)) (gwfDir b : List Nat) :
    Option (List Nat) :=
  files (store_key deu gwfDir b)

/-- The distinct failure exits of `finish` (`src/commands/finish.rs`):
each constructor corresponds to one `?`/`ok_or`/`return Err` site. -/
inductive GwfError
  /-- `head.shorthand().ok_or("Could not get current branch name")`. -/
  | couldNotGetCurrentBranch
  /-- `fs::read_to_string(message_file)?` failing (pending message absent). -/
  | notFoundError
  /-- `return Err("Invalid branch name format. ...")`. -/
  | invalidBranchFormat
  /-- `repo.workdir().ok_or("Could not get repository root")`. -/
  | couldNotGetRepoRoot
  /-- `ExternalCommand::new("sh")...output()?` failing to spawn. -/
  | ioError
deriving DecidableEq

/-- The segment-shape check of `finish` (`src/commands/finish.rs` lines
37-44): exactly 2 segments give `(type, "")`, exactly 3 give
`(type, scope)` (the message segment is unused), anything else is
`InvalidBranchFormat`. -/
def decode (branch : List Nat) : Except GwfError (List Nat × List Nat) :=
  match split_slash branch with
  | [t, _] => Except.ok (t, [])
  | [t, s, _] => Except.ok (t, s)
  | _ => Except.error GwfError.invalidBranchFormat

/-- The conventional-commit message construction (`src/commands/finish.rs`
lines 47-51): `type: message` when the decoded scope is empty, else
`type(scope): message`.  `message` is the raw text read from the side file. -/
def build_commit_message (type_ scope message : List Nat) : List Nat :=
  if scope = [] then type_ ++ chars ": " ++ message
  else type_ ++ chars "(" ++ scope ++ chars "): " ++ message

/-- The config lookup of `finish` (`src/commands/finish.rs` lines 67-77):
read `<root>/gwf.toml` when that file exists, otherwise
`<gwfDir>/gwf.toml`; a failing read or a failing TOML parse both collapse
to `none` (the two `if let Ok` guards). -/
def load_config (files : List Nat → Option (List Nat))
    (parse : List Nat → Option (List Nat)) (repoConfigExists : Bool)
    (root gwfDir : List Nat) : Option (List Nat) :=
  (if repoConfigExists then files (root ++ chars "/gwf.toml")
   else files (gwfDir ++ chars "/gwf.toml")).bind parse

/-- Captured output of the spawned process (`std::process::Output`). -/
structure ShellOutput where
  stdout : List Nat
  stderr : List Nat
  success : Bool
deriving DecidableEq

/-- A process invocation: program and argument list. -/
structure ExecCall where
  program : List Nat
  args : List (List Nat)
deriving DecidableEq

/-- What `finish` observably does with the post-commit command
(`src/commands/finish.rs` lines 78-101): the call it spawns, the captured
output, whether each stream was printed (only non-empty streams are), and
whether the failure branch (`eprintln!("Post-commit command failed ...")`)
was taken. -/
structure PostCommitReport where
  call : ExecCall
  output : ShellOutput
  stdoutReported : Bool
  stderrReported : Bool
  failureReported : Bool
deriving DecidableEq

/-- The observable outcome of a successful `finish`: the message of the
commit created at the `repo.commit` call, and the post-commit step's report
(`none` when the step was skipped). -/
structure FinishResult where
  commitMessage : List Nat
  post : Option PostCommitReport
deriving DecidableEq

/-- The observable outcome of a successful `new_branch`: the branch name
created and checked out, and the side-store file written by `writeln!`. -/
structure NewResult where
  branchName : List Nat
  storedKey : List Nat
  storedContent : List Nat
deriving DecidableEq

/-- Process-level outcome: `panicked` is an `unwrap` panic (not an error
return), `error e` is `Err(e)` propagated out of the subcommand (non-zero
process exit), `ok` is `Ok` (process exit 0). -/
inductive Outcome (α : Type)
  | panicked
  | error (e : GwfError)
  | ok (a : α)
deriving DecidableEq

/-- The environment a subcommand runs against: `home` is
`dirs::home_dir()`, `currentBranch` is `head.shorthand()`, `files` the
filesystem reads, `repoConfigExists` the `config_file.exists()` test at the
repository root, `workdir` is `repo.workdir()`, `parseToml` is
`toml::from_str::<Config>` yielding the `post_commit_command` field, and
`run` is `std::process::Command::output()` (`none` = spawn error). -/
structure Env where
  deu : Nat → Option (List Nat)
  home : Option (List Nat)
  currentBranch : Option (List Nat)
  files : List Nat → Option (List Nat)
  repoConfigExists : Bool
  workdir : Option (List Nat)
  parseToml : List Nat → Option (List Nat)
  run : ExecCall → Option ShellOutput

/-- The subcommand `new_branch` of `src/commands/nfb.rs`: compute the branch name, create
and check out the branch (modelled as succeeding), then store the message
via the side-message store.  `get_gwf_dir` is `dirs::home_dir().unwrap()`
joined with `".gwf"`: an unresolvable home directory panics. -/
def new_branch (env : Env) (type_ scope message : List Nat) : Outcome NewResult :=
  match env.home with
  | none => Outcome.panicked
  | some home =>
    Outcome.ok
      { branchName := encode env.deu type_ scope message,
        storedKey :=
          store_key env.deu (home ++ chars "/.gwf")
            (encode env.deu type_ scope message),
        storedContent := message ++ [10] }

/-- The subcommand `finish` of `src/commands/finish.rs`, step by step in source order:
resolve the branch shorthand; compute the side-file path (panicking if the
home directory is unresolvable) and read the pending message (`?`); check
the segment shape; build the commit message; create the commit (modelled as
succeeding, its message recorded in the result); resolve the workdir; load
the optional config; when a command is configured, spawn `sh -c <command>`
and report the captured streams and exit status.  A failing spawn is the
only post-commit failure that makes `finish` itself fail. -/
def finish (env : Env) : Outcome FinishResult :=
  match env.currentBranch with
  | none => Outcome.error GwfError.couldNotGetCurrentBranch
  | some current =>
    match env.home with
    | none => Outcome.panicked
    | some home =>
      match store_get env.deu env.files (home ++ chars "/.gwf") current with
      | none => Outcome.error GwfError.notFoundError
      | some message =>
        match decode current with
        | Except.error e => Outcome.error e
        | Except.ok (type_, scope) =>
          match env.workdir with
          | none => Outcome.error GwfError.couldNotGetRepoRoot
          | some root =>
            match load_config env.files env.parseToml env.repoConfigExists
                root (home ++ chars "/.gwf") with
            | none =>
              Outcome.ok
                { commitMessage := build_commit_message type_ scope message,
                  post := none }
            | some cmd =>
              match env.run { program := chars "sh", args := [chars "-c", cmd] } with
              | none => Outcome.error GwfError.ioError
              | some out =>
                Outcome.ok
                  { commitMessage := build_commit_message type_ scope message,
                    post := some
                      { call := { program := chars "sh", args := [chars "-c", cmd] },
                        output := out,
                        stdoutReported := !out.stdout.isEmpty,
                        stderrReported := !out.stderr.isEmpty,
                        failureReported := !out.success } }

/-! ## Concrete environments for evaluating the embedded operations -/

/-- A finish run on the 2-segment branch `chore/cleanup` whose pending
message `cleanup` was stored by the side-message store, with no config file
anywhere. -/
def env2 : Env :=
  { deu := deu0,
    home := some (chars "/home/u"),
    currentBranch := some (chars "chore/cleanup"),
    files := store_put deu0 (fun _ => none) (chars "/home/u/.gwf")
      (chars "chore/cleanup") (chars "cleanup"),
    repoConfigExists := false,
    workdir := some (chars "/repo"),
    parseToml := fun _ => none,
    run := fun _ => none }

/-- A finish run on the 3-segment branch `fix/ui/z` with pending message
`z` and no config file. -/
def env3 : Env :=
  { deu := deu0,
    home := some (chars "/home/u"),
    currentBranch := some (chars "fix/ui/z"),
    files := store_put deu0 (fun _ => none) (chars "/home/u/.gwf")
      (chars "fix/ui/z") (chars "z"),
    repoConfigExists := false,
    workdir := some (chars "/repo"),
    parseToml := fun _ => none,
    run := fun _ => none }

/-- The result of `finish env3`. -/
def r3 : FinishResult :=
  { commitMessage := chars "fix(ui): z" ++ [10], post := none }

/-- The end-to-end scenario of the spec (type `feat`, scope `api`, message
`add login`): the branch `feat/api/add-login` is current and the side file
holds `text` followed by the newline `put` appends. -/
def env4g (text : List Nat) : Env :=
  { deu := deu0,
    home := some (chars "/home/u"),
    currentBranch := some (chars "feat/api/add-login"),
    files := store_put deu0 (fun _ => none) (chars "/home/u/.gwf")
      (chars "feat/api/add-login") text,
    repoConfigExists := false,
    workdir := some (chars "/repo"),
    parseToml := fun _ => none,
    run := fun _ => none }

/-- A finish run on a branch literally named `main` (1 segment) with no
pending-message file for it. -/
def env5 : Env :=
  { deu := deu0,
    home := some (chars "/home/u"),
    currentBranch := some (chars "main"),
    files := fun _ => none,
    repoConfigExists := false,
    workdir := some (chars "/repo"),
    parseToml := fun _ => none,
    run := fun _ => none }

/-- Output of a post-commit command that exits non-zero. -/
def out6 : ShellOutput :=
  { stdout := [], stderr := chars "boom", success := false }

/-- A finish run on `chore/x` (pending message `y`) with a repository-root
`gwf.toml` whose `post_commit_command` is `exit 1`, a command that fails. -/
def env6 : Env :=
  { deu := deu0,
    home := some (chars "/home/u"),
    currentBranch := some (chars "chore/x"),
    files := store_put deu0
      (fun p => if p = chars "/repo/gwf.toml" then some (chars "cfg6") else none)
      (chars "/home/u/.gwf") (chars "chore/x") (chars "y"),
    repoConfigExists := true,
    workdir := some (chars "/repo"),
    parseToml := fun c => if c = chars "cfg6" then some (chars "exit 1") else none,
    run := fun c =>
      if c = { program := chars "sh", args := [chars "-c", chars "exit 1"] }
      then some out6 else none }

/-- Output of a post-commit command that succeeds and prints to stdout. -/
def out7 : ShellOutput :=
  { stdout := chars "hi", stderr := [], success := true }

/-- A finish run on `docs/readme` (pending message `w`) with a repository
config whose `post_commit_command` is `echo hi`. -/
def env7 : Env :=
  { deu := deu0,
    home := some (chars "/home/u"),
    currentBranch := some (chars "docs/readme"),
    files := store_put deu0
      (fun p => if p = chars "/repo/gwf.toml" then some (chars "cfg7") else none)
      (chars "/home/u/.gwf") (chars "docs/readme") (chars "w"),
    repoConfigExists := true,
    workdir := some (chars "/repo"),
    parseToml := fun c => if c = chars "cfg7" then some (chars "echo hi") else none,
    run := fun c =>
      if c = { program := chars "sh", args := [chars "-c", chars "echo hi"] }
      then some out7 else none }

/-- The post-commit report of `finish env7`. -/
def p7 : PostCommitReport :=
  { call := { program := chars "sh", args := [chars "-c", chars "echo hi"] },
    output := out7,
    stdoutReported := true,
    stderrReported := false,
    failureReported := false }

/-- The result of `finish env7`. -/
def r7 : FinishResult :=
  { commitMessage := chars "docs: w" ++ [10], post := some p7 }

/-- A finish run on `test/parse` (pending message `v`) with no readable
config file at either location. -/
def env8 : Env :=
  { deu := deu0,
    home := some (chars "/home/u"),
    currentBranch := some (chars "test/parse"),
    files := store_put deu0 (fun _ => none) (chars "/home/u/.gwf")
      (chars "test/parse") (chars "v"),
    repoConfigExists := false,
    workdir := some (chars "/repo"),
    parseToml := fun _ => none,
    run := fun _ => none }

/-- An environment in which the user's home directory cannot be resolved
(`dirs::home_dir()` returns `None`) while HEAD is on branch `a/b`. -/
def env10 : Env :=
  { deu := deu0,
    home := none,
    currentBranch := some (chars "a/b"),
    files := fun _ => none,
    repoConfigExists := false,
    workdir := some (chars "/repo"),
    parseToml := fun _ => none,
    run := fun _ => none }

/-! ## Character-level facts about `slugify` and `split_slash` -/

/-- The closure `push_char` never emits the separator `/` (47): it pushes lowercase
letters and digits, lowercased letters and dashes (45) only. -/
theorem push_char_ne_47 (acc : List Nat × Bool) (x : Nat)
    (h : ∀ c ∈ acc.1, c ≠ 47) : ∀ c ∈ (push_char acc x).1, c ≠ 47 := by
  intro c hc
  unfold push_char at hc
  split at hc
  · rename_i hx
    rcases List.mem_append.1 hc with h1 | h1
    · exact h c h1
    · simp only [List.mem_singleton] at h1
      omega
  · split at hc
    · rename_i hx
      rcases List.mem_append.1 hc with h1 | h1
      · exact h c h1
      · simp only [List.mem_singleton] at h1
        omega
    · split at hc
      · rcases List.mem_append.1 hc with h1 | h1
        · exact h c h1
        · simp only [List.mem_singleton] at h1
          omega
      · exact h c hc

/-- Folding `push_char` preserves 47-freeness of the accumulated slug. -/
theorem foldl_push_char_ne_47 (l : List Nat) (acc : List Nat × Bool)
    (h : ∀ c ∈ acc.1, c ≠ 47) : ∀ c ∈ (l.foldl push_char acc).1, c ≠ 47 := by
  induction l generalizing acc with
  | nil => exact h
  | cons x xs ih =>
    simp only [List.foldl_cons]
    exact ih _ (push_char_ne_47 _ _ h)

/-- One `slug_step` (ASCII or transliterated) preserves 47-freeness. -/
theorem slug_step_ne_47 (deu : Nat → Option (List Nat)) (acc : List Nat × Bool)
    (x : Nat) (h : ∀ c ∈ acc.1, c ≠ 47) :
    ∀ c ∈ (slug_step deu acc x).1, c ≠ 47 := by
  unfold slug_step
  split
  · exact push_char_ne_47 _ _ h
  · exact foldl_push_char_ne_47 _ _ h

/-- A slug never contains the separator `/` (47), whatever the `deunicode`
table: branch segments built from slugs stay intact under `split('/')`. -/
theorem slugify_ne_47 (deu : Nat → Option (List Nat)) (s : List Nat) :
    ∀ c ∈ slugify deu s, c ≠ 47 := by
  have base : ∀ (l : List Nat) (acc : List Nat × Bool),
      (∀ c ∈ acc.1, c ≠ 47) → ∀ c ∈ (l.foldl (slug_step deu) acc).1, c ≠ 47 := by
    intro l
    induction l with
    | nil => intro acc h; exact h
    | cons x xs ih =>
      intro acc h
      simp only [List.foldl_cons]
      exact ih _ (slug_step_ne_47 _ _ _ h)
  intro c hc
  simp only [slugify] at hc
  split at hc
  · exact base s ([], true) (by simp) c (List.dropLast_subset _ hc)
  · exact base s ([], true) (by simp) c hc

/-- The two defining equations of `split_slash_aux`, as rewrite rules. -/
theorem split_slash_aux_nil_eq (acc : List Nat) :
    split_slash_aux [] acc = [acc.reverse] := rfl

/-- Unfolding `split_slash_aux` on a cons: emit a segment at 47, else accumulate. -/
theorem split_slash_aux_cons_eq (c : Nat) (cs acc : List Nat) :
    split_slash_aux (c :: cs) acc =
      if c = 47 then acc.reverse :: split_slash_aux cs []
      else split_slash_aux cs (c :: acc) := rfl

/-- Splitting a list that starts with a 47-free prefix accumulates that
prefix into the current segment. -/
theorem split_slash_aux_append (x : List Nat) :
    ∀ (l acc : List Nat), (∀ c ∈ x, c ≠ 47) →
      split_slash_aux (x ++ l) acc = split_slash_aux l (x.reverse ++ acc) := by
  induction x with
  | nil => intro l acc _; simp
  | cons c cs ih =>
    intro l acc h
    simp only [List.cons_append]
    rw [split_slash_aux_cons_eq, if_neg (h c (List.mem_cons_self c cs))]
    rw [ih l (c :: acc) (fun d hd => h d (List.mem_cons_of_mem c hd))]
    simp [List.reverse_cons, List.append_assoc]

/-- A 47-free list followed by `47 :: l` splits into that list and the
segments of `l`. -/
theorem split_slash_sep (x l : List Nat) (h : ∀ c ∈ x, c ≠ 47) :
    split_slash (x ++ 47 :: l) = x :: split_slash l := by
  unfold split_slash
  rw [split_slash_aux_append x (47 :: l) [] h, split_slash_aux_cons_eq]
  simp

/-- A 47-free list is a single segment. -/
theorem split_slash_no_sep (x : List Nat) (h : ∀ c ∈ x, c ≠ 47) :
    split_slash x = [x] := by
  unfold split_slash
  have hx := split_slash_aux_append x [] [] h
  rw [List.append_nil] at hx
  rw [hx, split_slash_aux_nil_eq]
  simp

/-- Any segment count other than 2 or 3 falls through to the
`InvalidBranchFormat` arm of `decode`. -/
theorem decode_err_of_length (b : List Nat)
    (h2 : (split_slash b).length ≠ 2) (h3 : (split_slash b).length ≠ 3) :
    decode b = Except.error GwfError.invalidBranchFormat := by
  unfold decode
  rcases hsp : split_slash b with _ | ⟨a, _ | ⟨c, _ | ⟨d, _ | ⟨e, tl⟩⟩⟩⟩
  · rfl
  · rfl
  · rw [hsp] at h2; simp at h2
  · rw [hsp] at h3; simp at h3
  · rfl

/-! ## Claim theorems -/

/-- C1 (amended): for every deunicode table and every (type, scope, message),
`encode` produces exactly the segments `[slug type, slug message]` when the
scope is empty and `[slug type, slug scope, slug message]` otherwise, and the
Branch Creator's created branch name is exactly `encode`; the branch name
contains no empty segment provided each slugified component entering it is
non-empty (a non-empty scope whose slug is empty does yield an empty
segment, see the counterexample). -/
theorem encode_segment_shape (deu : Nat → Option (List Nat)) (t s m : List Nat) :
    ((s = [] → split_slash (encode deu t s m) = [slugify deu t, slugify deu m]) ∧
     (s ≠ [] → split_slash (encode deu t s m) =
        [slugify deu t, slugify deu s, slugify deu m])) ∧
    (slugify deu t ≠ [] → slugify deu m ≠ [] → (s ≠ [] → slugify deu s ≠ []) →
      [] ∉ split_slash (encode deu t s m)) ∧
    (∀ (env : Env) (r : NewResult),
      new_branch env t s m = Outcome.ok r → r.branchName = encode env.deu t s m) := by
  have h2 : s = [] →
      split_slash (encode deu t s m) = [slugify deu t, slugify deu m] := by
    intro hs
    unfold encode
    rw [if_pos hs, split_slash_sep _ _ (slugify_ne_47 deu t),
      split_slash_no_sep _ (slugify_ne_47 deu m)]
  have h3 : s ≠ [] →
      split_slash (encode deu t s m) =
        [slugify deu t, slugify deu s, slugify deu m] := by
    intro hs
    unfold encode
    rw [if_neg hs, split_slash_sep _ _ (slugify_ne_47 deu t),
      split_slash_sep _ _ (slugify_ne_47 deu s),
      split_slash_no_sep _ (slugify_ne_47 deu m)]
  refine ⟨⟨h2, h3⟩, ?_, ?_⟩
  · intro ht hm hs hmem
    by_cases hsc : s = []
    · rw [h2 hsc] at hmem
      simp only [List.mem_cons, List.mem_singleton, List.not_mem_nil, or_false] at hmem
      rcases hmem with h | h
      · exact ht h.symm
      · exact hm h.symm
    · rw [h3 hsc] at hmem
      simp only [List.mem_cons, List.mem_singleton, List.not_mem_nil, or_false] at hmem
      rcases hmem with h | h | h
      · exact ht h.symm
      · exact (hs hsc) h.symm
      · exact hm h.symm
  · intro env r h
    unfold new_branch at h
    rcases hh : env.home with _ | home
    · rw [hh] at h
      simp at h
    · rw [hh] at h
      simp only [Outcome.ok.injEq] at h
      rw [← h]

/-- C1 witness: at (feat, api, add login) every slug is non-empty and the
branch name `feat/api/add-login` has no empty segment. -/
theorem encode_segment_shape_witness :
    [] ∉ split_slash (encode deu0 (chars "feat") (chars "api") (chars "add login")) :=
  (encode_segment_shape deu0 (chars "feat") (chars "api") (chars "add login")).2.1
    (by decide) (by decide) (fun _ => by decide)

/-- C1 counterexample: the scope `!` is non-empty, yet the branch name
`encode` builds from (feat, !, fix) is `feat//fix`, which contains an empty
segment — the claim that the created branch name never contains an empty
segment fails. -/
theorem encode_empty_segment_counterexample :
    chars "!" ≠ [] ∧
    [] ∈ split_slash (encode deu0 (chars "feat") (chars "!") (chars "fix")) := by
  decide

/-- C2: `decode` accepts exactly the 2- and 3-segment shapes — 2 segments
yield (type, empty scope), 3 segments yield (type, scope), any other count
is `InvalidBranchFormat` — and the 2-segment branch `chore/cleanup` is
accepted and finished successfully with commit message `chore: cleanup`
(plus the stored newline). -/
theorem decode_accepts_exactly_2_or_3 :
    (∀ b : List Nat,
      (∀ t m, split_slash b = [t, m] → decode b = Except.ok (t, ([] : List Nat))) ∧
      (∀ t s m, split_slash b = [t, s, m] → decode b = Except.ok (t, s)) ∧
      ((split_slash b).length ≠ 2 → (split_slash b).length ≠ 3 →
        decode b = Except.error GwfError.invalidBranchFormat)) ∧
    finish env2 =
      Outcome.ok { commitMessage := chars "chore: cleanup" ++ [10], post := none } := by
  constructor
  · intro b
    refine ⟨?_, ?_, decode_err_of_length b⟩
    · intro t m h
      unfold decode
      rw [h]
    · intro t s m h
      unfold decode
      rw [h]
  · rfl

/-- C2 witness: the 1-segment branch `main` is rejected with
`InvalidBranchFormat`. -/
theorem decode_accepts_exactly_2_or_3_witness :
    decode (chars "main") = Except.error GwfError.invalidBranchFormat :=
  (decode_accepts_exactly_2_or_3.1 (chars "main")).2.2 (by decide) (by decide)

/-- C9: `get` after `put` returns the stored text followed by the newline
`put` appends, for any branch identifier and any text — `put` and `get`
address the same key `store_key` (the slug of the branch name) — and a
second `put` overwrites the first. -/
theorem store_get_put_roundtrip :
    ∀ (deu : Nat → Option (List Nat)) (files : List Nat → Option (List Nat))
      (gwfDir b text prior : List Nat),
      store_get deu (store_put deu files gwfDir b text) gwfDir b =
        some (text ++ [10]) ∧
      store_get deu
          (store_put deu (store_put deu files gwfDir b prior) gwfDir b text)
          gwfDir b = some (text ++ [10]) := by
  intro deu files gwfDir b text prior
  constructor <;>
    · unfold store_get store_put
      rw [if_pos rfl]

/-- C10: when the user's home directory cannot be resolved, both subcommands
panic at the `dirs::home_dir().unwrap()` inside `get_gwf_dir` (they do not
return an error value). -/
theorem home_unresolved_panics :
    ∀ (env : Env) (type_ scope message current : List Nat),
      env.home = none → env.currentBranch = some current →
      new_branch env type_ scope message = Outcome.panicked ∧
      finish env = Outcome.panicked := by
  intro env t s m current hh hc
  constructor
  · unfold new_branch
    rw [hh]
  · unfold finish
    rw [hc, hh]

/-- C10 witness: in `env10` (no home directory, HEAD on branch `a/b`) both
subcommands panic. -/
theorem home_unresolved_panics_witness :
    new_branch env10 (chars "feat") (chars "api") (chars "x") = Outcome.panicked ∧
    finish env10 = Outcome.panicked :=
  home_unresolved_panics env10 (chars "feat") (chars "api") (chars "x")
    (chars "a/b") rfl rfl

/-- C3: every finish run that reaches commit creation builds the commit
message as `type(scope): <pending text>` when the decoded scope is non-empty
and as `type: <pending text>` when the scope is empty (2-segment branch). -/
theorem finish_commit_message_shape :
    ∀ (env : Env) (home current msg t s : List Nat) (r : FinishResult),
      env.home = some home →
      env.currentBranch = some current →
      store_get env.deu env.files (home ++ chars "/.gwf") current = some msg →
      decode current = Except.ok (t, s) →
      finish env = Outcome.ok r →
      r.commitMessage =
        (if s = [] then t ++ chars ": " ++ msg
         else t ++ chars "(" ++ s ++ chars "): " ++ msg) := by
  intro env home current msg t s r hh hc hg hd hf
  simp only [finish, hc, hh, hg, hd] at hf
  split at hf
  · exact absurd hf (by simp)
  · split at hf
    · simp only [Outcome.ok.injEq] at hf
      rw [← hf]
      rfl
    · split at hf
      · exact absurd hf (by simp)
      · simp only [Outcome.ok.injEq] at hf
        rw [← hf]
        rfl

/-- C3 witness: on the 3-segment branch `fix/ui/z` with pending text `z`
(stored with its newline) the commit message is `fix(ui): z`. -/
theorem finish_commit_message_shape_witness :
    r3.commitMessage =
      (if (chars "ui") = [] then chars "fix" ++ chars ": " ++ (chars "z" ++ [10])
       else chars "fix" ++ chars "(" ++ chars "ui" ++ chars "): " ++
         (chars "z" ++ [10])) :=
  finish_commit_message_shape env3 (chars "/home/u") (chars "fix/ui/z")
    (chars "z" ++ [10]) (chars "fix") (chars "ui") r3 rfl rfl (by decide) rfl
    (by decide)

/-- C4 (amended): the pending text read from the side file is placed into
the commit message exactly as read, its trailing newline retained: in the
end-to-end scenario (branch `feat/api/add-login`, stored text `text`) the
commit message is `feat(api): ` ++ text ++ newline, not a trimmed string. -/
theorem finish_newline_retained :
    ∀ text : List Nat,
      finish (env4g text) =
        Outcome.ok { commitMessage := chars "feat(api): " ++ (text ++ [10]),
                     post := none } := by
  intro text
  have hg : store_get deu0
      (store_put deu0 (fun _ => none) (chars "/home/u/.gwf")
        (chars "feat/api/add-login") text)
      (chars "/home/u" ++ chars "/.gwf") (chars "feat/api/add-login") =
      some (text ++ [10]) := by
    unfold store_get store_put
    rw [if_pos (by decide)]
  have hl : load_config
      (store_put deu0 (fun _ => none) (chars "/home/u/.gwf")
        (chars "feat/api/add-login") text)
      (fun _ => none) false (chars "/repo") (chars "/home/u" ++ chars "/.gwf") =
      none := by
    unfold load_config store_put
    rw [if_neg (by decide), if_neg (by decide)]
    rfl
  have hd : decode (chars "feat/api/add-login") =
      Except.ok (chars "feat", chars "api") := rfl
  simp only [finish, env4g, hg, hd, hl, build_commit_message]
  rw [if_neg (by decide),
    show (chars "feat" ++ chars "(" ++ chars "api" ++ chars "): " : List Nat) =
      chars "feat(api): " from by decide]

/-- C4 counterexample: with pending text `add login` the commit message is
`feat(api): add login` followed by a newline — not exactly
`feat(api): add login` as the claim states. -/
theorem finish_newline_counterexample :
    finish (env4g (chars "add login")) =
      Outcome.ok { commitMessage := chars "feat(api): add login" ++ [10],
                   post := none } ∧
    chars "feat(api): add login" ++ [10] ≠ chars "feat(api): add login" :=
  ⟨rfl, by decide⟩

/-- C5 (amended): the pending-message lookup runs before the segment-shape
check, so on a branch that does not split into 2 or 3 segments `finish`
fails with `NotFoundError` when the side file is missing, and with
`InvalidBranchFormat` only when the side-file read succeeds. -/
theorem finish_lookup_precedes_shape_check :
    ∀ (env : Env) (home current : List Nat),
      env.home = some home →
      env.currentBranch = some current →
      (split_slash current).length ≠ 2 →
      (split_slash current).length ≠ 3 →
      (store_get env.deu env.files (home ++ chars "/.gwf") current = none →
        finish env = Outcome.error GwfError.notFoundError) ∧
      (∀ msg,
        store_get env.deu env.files (home ++ chars "/.gwf") current = some msg →
        finish env = Outcome.error GwfError.invalidBranchFormat) := by
  intro env home current hh hc h2 h3
  constructor
  · intro hg
    simp only [finish, hc, hh, hg]
  · intro msg hg
    simp only [finish, hc, hh, hg, decode_err_of_length current h2 h3]

/-- C5 counterexample: on a branch literally named `main` with no pending
file, `finish` fails with `NotFoundError`, not with `InvalidBranchFormat`
as the claim states. -/
theorem finish_main_branch_counterexample :
    finish env5 = Outcome.error GwfError.notFoundError ∧
    GwfError.notFoundError ≠ GwfError.invalidBranchFormat :=
  ⟨rfl, by decide⟩

/-- C5 witness: the amended ordering evaluated on `env5` (branch `main`,
empty side store). -/
theorem finish_lookup_precedes_shape_check_witness :
    finish env5 = Outcome.error GwfError.notFoundError :=
  (finish_lookup_precedes_shape_check env5 (chars "/home/u") (chars "main")
    rfl rfl (by decide) (by decide)).1 rfl

/-- C6: when the post-commit command runs and exits with a non-zero status,
the failure is only reported (`failureReported := true`): `finish` still
returns `Ok` — process exit code 0 — and its result still carries the commit
created before the post-commit step (it is not rolled back). -/
theorem post_commit_failure_nonfatal :
    ∀ (env : Env) (home current msg t s root cmd : List Nat) (out : ShellOutput),
      env.home = some home →
      env.currentBranch = some current →
      store_get env.deu env.files (home ++ chars "/.gwf") current = some msg →
      decode current = Except.ok (t, s) →
      env.workdir = some root →
      load_config env.files env.parseToml env.repoConfigExists root
        (home ++ chars "/.gwf") = some cmd →
      env.run { program := chars "sh", args := [chars "-c", cmd] } = some out →
      out.success = false →
      finish env =
        Outcome.ok
          { commitMessage := build_commit_message t s msg,
            post := some
              { call := { program := chars "sh", args := [chars "-c", cmd] },
                output := out,
                stdoutReported := !out.stdout.isEmpty,
                stderrReported := !out.stderr.isEmpty,
                failureReported := true } } := by
  intro env home current msg t s root cmd out hh hc hg hd hw hl hr hfail
  simp only [finish, hc, hh, hg, hd, hw, hl, hr, hfail, Bool.not_false]

/-- C6 witness: in `env6` the configured command `exit 1` fails, and
`finish` still returns the commit `chore: y` successfully. -/
theorem post_commit_failure_nonfatal_witness :
    finish env6 =
      Outcome.ok
        { commitMessage := build_commit_message (chars "chore") []
            (chars "y" ++ [10]),
          post := some
            { call := { program := chars "sh", args := [chars "-c", chars "exit 1"] },
              output := out6,
              stdoutReported := !out6.stdout.isEmpty,
              stderrReported := !out6.stderr.isEmpty,
              failureReported := true } } :=
  post_commit_failure_nonfatal env6 (chars "/home/u") (chars "chore/x")
    (chars "y" ++ [10]) (chars "chore") [] (chars "/repo") (chars "exit 1") out6
    rfl rfl (by decide) rfl rfl (by decide) (by decide) rfl

/-- C7: whenever `finish` succeeds having run a post-commit command, that
command was the configured string passed whole to `sh -c`, and stdout and
stderr were captured separately with each stream reported exactly when
non-empty (and failure reported exactly on non-zero exit). -/
theorem post_commit_via_shell :
    ∀ (env : Env) (r : FinishResult) (p : PostCommitReport),
      finish env = Outcome.ok r → r.post = some p →
      (∃ home root cmd,
        env.home = some home ∧ env.workdir = some root ∧
        load_config env.files env.parseToml env.repoConfigExists root
          (home ++ chars "/.gwf") = some cmd ∧
        p.call = { program := chars "sh", args := [chars "-c", cmd] } ∧
        env.run p.call = some p.output) ∧
      p.stdoutReported = !p.output.stdout.isEmpty ∧
      p.stderrReported = !p.output.stderr.isEmpty ∧
      p.failureReported = !p.output.success := by
  intro env r p hf hp
  unfold finish at hf
  split at hf
  · exact absurd hf (by simp)
  · rename_i current heqc
    split at hf
    · exact absurd hf (by simp)
    · rename_i home heqh
      split at hf
      · exact absurd hf (by simp)
      · rename_i message heqg
        split at hf
        · exact absurd hf (by simp)
        · rename_i type_ scope heqd
          split at hf
          · exact absurd hf (by simp)
          · rename_i root heqw
            split at hf
            · simp only [Outcome.ok.injEq] at hf
              subst hf
              simp at hp
            · rename_i cmd heql
              split at hf
              · exact absurd hf (by simp)
              · rename_i out heqr
                simp only [Outcome.ok.injEq] at hf
                subst hf
                simp only [Option.some.injEq] at hp
                subst hp
                exact ⟨⟨home, root, cmd, heqh, heqw, heql, rfl, heqr⟩,
                  rfl, rfl, rfl⟩

/-- C7 witness: in `env7` the configured `echo hi` is run as `sh -c echo hi`,
its non-empty stdout is reported, its empty stderr is not. -/
theorem post_commit_via_shell_witness :
    (∃ home root cmd,
      env7.home = some home ∧ env7.workdir = some root ∧
      load_config env7.files env7.parseToml env7.repoConfigExists root
        (home ++ chars "/.gwf") = some cmd ∧
      p7.call = { program := chars "sh", args := [chars "-c", cmd] } ∧
      env7.run p7.call = some p7.output) ∧
    p7.stdoutReported = !p7.output.stdout.isEmpty ∧
    p7.stderrReported = !p7.output.stderr.isEmpty ∧
    p7.failureReported = !p7.output.success :=
  post_commit_via_shell env7 r7 p7 (by decide) rfl

/-- C8: config loading is never fatal for the post-commit step: when the
config lookup yields nothing (file unreadable at the consulted location, or
unparseable), the step is silently skipped and `finish` still succeeds; and
the lookup consults the repository-root `gwf.toml` exactly when it exists,
the user-global `<home>/.gwf/gwf.toml` only otherwise. -/
theorem config_optional_never_fatal :
    (∀ (env : Env) (home current msg t s root : List Nat),
      env.home = some home →
      env.currentBranch = some current →
      store_get env.deu env.files (home ++ chars "/.gwf") current = some msg →
      decode current = Except.ok (t, s) →
      env.workdir = some root →
      load_config env.files env.parseToml env.repoConfigExists root
        (home ++ chars "/.gwf") = none →
      finish env =
        Outcome.ok { commitMessage := build_commit_message t s msg,
                     post := none }) ∧
    (∀ (files parse : List Nat → Option (List Nat)) (root gwfDir : List Nat),
      load_config files parse true root gwfDir =
        (files (root ++ chars "/gwf.toml")).bind parse) ∧
    (∀ (files parse : List Nat → Option (List Nat)) (root gwfDir : List Nat),
      load_config files parse false root gwfDir =
        (files (gwfDir ++ chars "/gwf.toml")).bind parse) := by
  refine ⟨?_, ?_, ?_⟩
  · intro env home current msg t s root hh hc hg hd hw hl
    simp only [finish, hc, hh, hg, hd, hw, hl]
  · intro files parse root gwfDir
    unfold load_config
    rw [if_pos rfl]
  · intro files parse root gwfDir
    unfold load_config
    rw [if_neg (by decide)]

/-- C8 witness: in `env8` no config file is readable at either location and
`finish` still succeeds with the post-commit step skipped. -/
theorem config_optional_never_fatal_witness :
    finish env8 =
      Outcome.ok { commitMessage := (build_commit_message (chars "test") []
        (chars "v" ++ [10])), post := none } :=
  config_optional_never_fatal.1 env8 (chars "/home/u") (chars "test/parse")
    (chars "v" ++ [10]) (chars "test") [] (chars "/repo") rfl rfl (by decide)
    rfl rfl (by decide)
